import Mathlib

/-!
Verification of the gym-management membership lifecycle logic.

The server stores calendar dates as ISO `yyyy-MM-dd` strings and compares them
with JavaScript string comparison, which on well-formed ISO dates coincides
with lexicographic comparison of the (year, month, day) triple.  We embed such
a date as a `Date` structure and embed the string comparisons as lexicographic
comparisons on the triple.  `date-fns`'s `addMonths` performs calendar-month
addition with end-of-month clamping; JavaScript's `setDate(getDate() + n)`
performs day addition with calendar normalisation, embedded as iterated
`nextDay`.  Signed day differences (`Math.ceil((parsedDate - now) / msPerDay)`
on a date parsed at midnight) coincide with the difference of day ordinals,
embedded via a rata-die style `toOrdinal`.
-/

structure Date where
  year : Nat
  month : Nat
  day : Nat
deriving DecidableEq, Repr

/-- Gregorian leap-year rule, as implemented by JavaScript `Date`. -/
def isLeapYear (y : Nat) : Bool :=
  (y % 4 == 0 && y % 100 != 0) || y % 400 == 0

/-- Number of days in a month of a given year. -/
def daysInMonth (y m : Nat) : Nat :=
  match m with
  | 2 => if isLeapYear y then 29 else 28
  | 4 | 6 | 9 | 11 => 30
  | _ => 31

/-- Days of year `y` that lie in months strictly before month `m`. -/
def daysBeforeMonth (y : Nat) : Nat → Nat
  | 0 => 0
  | 1 => 0
  | m + 1 => daysBeforeMonth y m + daysInMonth y (m + 1 - 1)

/-- Number of leap years in `1..k`. -/
def leapYearsBefore (k : Nat) : Nat :=
  k / 4 + k / 400 - k / 100

/-- Rata-die style day ordinal of a date (day 1 is 0001-01-01). -/
def Date.toOrdinal (d : Date) : Nat :=
  365 * (d.year - 1) + leapYearsBefore (d.year - 1) + daysBeforeMonth d.year d.month + d.day

/-- Signed day difference, positive when `d` is in the future relative to `now`.
This is the value of `Math.ceil((midnight(d) - now) / msPerDay)` for any
instant `now` falling on the calendar day `now`. -/
def daysUntil (d now : Date) : Int :=
  (d.toOrdinal : Int) - (now.toOrdinal : Int)

/-- Lexicographic strict comparison on (year, month, day); this is JavaScript
string `<` on the corresponding `yyyy-MM-dd` strings. -/
def Date.blt (a b : Date) : Bool :=
  if a.year ≠ b.year then decide (a.year < b.year)
  else if a.month ≠ b.month then decide (a.month < b.month)
  else decide (a.day < b.day)

/-- JavaScript string `<=` on ISO dates: the negation of reversed `<`. -/
def Date.ble (a b : Date) : Bool :=
  !(Date.blt b a)

/-- A well-formed calendar date. -/
def Date.Valid (d : Date) : Prop :=
  1 ≤ d.year ∧ 1 ≤ d.month ∧ d.month ≤ 12 ∧ 1 ≤ d.day ∧ d.day ≤ daysInMonth d.year d.month

instance (d : Date) : Decidable d.Valid := by
  unfold Date.Valid; exact inferInstance

/-- Successor day in the calendar. -/
def Date.nextDay (d : Date) : Date :=
  if d.day < daysInMonth d.year d.month then ⟨d.year, d.month, d.day + 1⟩
  else if d.month < 12 then ⟨d.year, d.month + 1, 1⟩
  else ⟨d.year + 1, 1, 1⟩

/-- Day addition with calendar normalisation (JavaScript `setDate(getDate()+n)`). -/
def Date.addDays : Date → Nat → Date
  | d, 0 => d
  | d, n + 1 => (Date.addDays d n).nextDay

/-- Calendar-month addition with end-of-month clamping (`date-fns` `addMonths`). -/
def addMonths (d : Date) (n : Nat) : Date :=
  let t := d.year * 12 + (d.month - 1) + n
  ⟨t / 12, t % 12 + 1, min d.day (daysInMonth (t / 12) (t % 12 + 1))⟩

theorem daysBeforeMonth_succ (y m : Nat) (h : 1 ≤ m) :
    daysBeforeMonth y (m + 1) = daysBeforeMonth y m + daysInMonth y m := by
  match m, h with
  | m + 1, _ => simp [daysBeforeMonth]

theorem one_le_daysInMonth (y m : Nat) : 1 ≤ daysInMonth y m := by
  unfold daysInMonth
  match m with
  | 2 => cases isLeapYear y <;> simp
  | 4 | 6 | 9 | 11 => simp
  | 0 | 1 | 3 | 5 | 7 | 8 | 10 | 12 => simp
  | n + 13 => simp

theorem daysBeforeMonth_le_succ (y m : Nat) :
    daysBeforeMonth y m ≤ daysBeforeMonth y (m + 1) := by
  match m with
  | 0 => simp [daysBeforeMonth]
  | m + 1 => rw [daysBeforeMonth_succ y (m + 1) (by omega)]; omega

theorem daysBeforeMonth_mono (y : Nat) {m₁ m₂ : Nat} (h : m₁ ≤ m₂) :
    daysBeforeMonth y m₁ ≤ daysBeforeMonth y m₂ := by
  induction m₂ with
  | zero =>
    have h0 : m₁ = 0 := by omega
    subst h0; exact le_refl _
  | succ n ih =>
    rcases Nat.lt_or_ge m₁ (n + 1) with h' | h'
    · exact le_trans (ih (by omega)) (daysBeforeMonth_le_succ y n)
    · have h0 : m₁ = n + 1 := by omega
      subst h0; exact le_refl _

theorem leapYearsBefore_succ (k : Nat) :
    leapYearsBefore (k + 1) = leapYearsBefore k + (if isLeapYear (k + 1) then 1 else 0) := by
  have h4 := Nat.succ_div k 4
  have h100 := Nat.succ_div k 100
  have h400 := Nat.succ_div k 400
  have hba : k / 100 ≤ k / 4 := Nat.div_le_div_left (by norm_num) (by norm_num)
  have hd1 : (100 : Nat) ∣ (k + 1) → (4 : Nat) ∣ (k + 1) := fun h =>
    dvd_trans (by norm_num) h
  have hd2 : (400 : Nat) ∣ (k + 1) → (100 : Nat) ∣ (k + 1) := fun h =>
    dvd_trans (by norm_num) h
  unfold leapYearsBefore isLeapYear
  by_cases c4 : (4 : Nat) ∣ (k + 1) <;> by_cases c100 : (100 : Nat) ∣ (k + 1) <;>
    by_cases c400 : (400 : Nat) ∣ (k + 1) <;>
    simp only [if_pos, if_neg, c4, c100, c400, Nat.dvd_iff_mod_eq_zero] at h4 h100 h400 ⊢ <;>
    simp_all [Nat.dvd_iff_mod_eq_zero] <;> omega

/-- The day-of-year is at most the length of the year. -/
theorem dayOfYear_le (y m d : Nat) (h1 : 1 ≤ m) (h2 : m ≤ 12) (h3 : d ≤ daysInMonth y m) :
    daysBeforeMonth y m + d ≤ 365 + (if isLeapYear y then 1 else 0) := by
  cases hl : isLeapYear y <;>
    interval_cases m <;>
    simp [daysBeforeMonth, daysInMonth, hl] at h3 ⊢ <;>
    omega

theorem blt_iff {a b : Date} : Date.blt a b = true ↔
    (a.year < b.year ∨ (a.year = b.year ∧
      (a.month < b.month ∨ (a.month = b.month ∧ a.day < b.day)))) := by
  unfold Date.blt
  by_cases h1 : a.year = b.year <;> by_cases h2 : a.month = b.month <;>
    simp [h1, h2] <;> try omega

theorem base_succ (y : Nat) (h : 1 ≤ y) :
    365 * y + leapYearsBefore y =
      365 * (y - 1) + leapYearsBefore (y - 1) + 365 + (if isLeapYear y then 1 else 0) := by
  have hs := leapYearsBefore_succ (y - 1)
  have e : y - 1 + 1 = y := by omega
  rw [e] at hs
  omega

theorem base_mono {y₁ y₂ : Nat} (h : y₁ ≤ y₂) :
    365 * y₁ + leapYearsBefore y₁ ≤ 365 * y₂ + leapYearsBefore y₂ := by
  induction y₂ with
  | zero =>
    have h0 : y₁ = 0 := by omega
    subst h0; exact le_refl _
  | succ k ih =>
    rcases Nat.lt_or_ge y₁ (k + 1) with h' | h'
    · have hs := leapYearsBefore_succ k
      have := ih (by omega)
      omega
    · have h0 : y₁ = k + 1 := by omega
      subst h0; exact le_refl _

/-- Lexicographic order on valid dates implies strict ordinal order:
string comparison of ISO dates agrees with chronological comparison. -/
theorem toOrdinal_lt_of_blt {a b : Date} (ha : a.Valid) (hb : b.Valid)
    (h : Date.blt a b = true) : a.toOrdinal < b.toOrdinal := by
  obtain ⟨hay, ham1, ham2, had1, had2⟩ := ha
  obtain ⟨hby, hbm1, hbm2, hbd1, hbd2⟩ := hb
  rcases blt_iff.mp h with hy | ⟨hy, hm | ⟨hm, hd⟩⟩
  · have h1 := dayOfYear_le a.year a.month a.day ham1 ham2 had2
    have h2 := base_succ a.year hay
    have h3 : 365 * a.year + leapYearsBefore a.year ≤
        365 * (b.year - 1) + leapYearsBefore (b.year - 1) := base_mono (by omega)
    simp only [Date.toOrdinal]
    omega
  · have h1 := daysBeforeMonth_succ a.year a.month ham1
    have h2 : daysBeforeMonth a.year (a.month + 1) ≤ daysBeforeMonth a.year b.month :=
      daysBeforeMonth_mono _ (by omega)
    simp only [Date.toOrdinal, ← hy]
    omega
  · simp only [Date.toOrdinal, ← hy, ← hm]
    omega

theorem blt_total (a b : Date) : Date.blt a b = true ∨ a = b ∨ Date.blt b a = true := by
  by_cases h : a = b
  · exact Or.inr (Or.inl h)
  · have hne : ¬(a.year = b.year ∧ a.month = b.month ∧ a.day = b.day) := by
      intro hc
      exact h (by cases a; cases b; simp_all)
    rw [blt_iff, blt_iff]
    omega

theorem blt_iff_toOrdinal {a b : Date} (ha : a.Valid) (hb : b.Valid) :
    Date.blt a b = true ↔ a.toOrdinal < b.toOrdinal := by
  constructor
  · exact toOrdinal_lt_of_blt ha hb
  · intro h
    rcases blt_total a b with h1 | h1 | h1
    · exact h1
    · subst h1; omega
    · have := toOrdinal_lt_of_blt hb ha h1; omega

theorem ble_iff_toOrdinal {a b : Date} (ha : a.Valid) (hb : b.Valid) :
    Date.ble a b = true ↔ a.toOrdinal ≤ b.toOrdinal := by
  have h := blt_iff_toOrdinal hb ha
  unfold Date.ble
  rw [Bool.not_eq_true', ← Bool.not_eq_true, h]
  omega

theorem nextDay_valid {d : Date} (hd : d.Valid) : d.nextDay.Valid := by
  obtain ⟨h1, h2, h3, h4, h5⟩ := hd
  unfold Date.nextDay
  split
  case isTrue h =>
    exact ⟨h1, h2, h3, by show 1 ≤ d.day + 1; omega,
      by show d.day + 1 ≤ daysInMonth d.year d.month; omega⟩
  case isFalse h =>
    split
    case isTrue hm =>
      exact ⟨h1, by show 1 ≤ d.month + 1; omega, by show d.month + 1 ≤ 12; omega,
        le_refl 1, one_le_daysInMonth d.year (d.month + 1)⟩
    case isFalse hm =>
      exact ⟨by show 1 ≤ d.year + 1; omega, le_refl 1, by show (1 : Nat) ≤ 12; omega,
        le_refl 1, one_le_daysInMonth (d.year + 1) 1⟩

theorem toOrdinal_nextDay {d : Date} (hd : d.Valid) :
    d.nextDay.toOrdinal = d.toOrdinal + 1 := by
  obtain ⟨h1, h2, h3, h4, h5⟩ := hd
  unfold Date.nextDay
  split
  case isTrue h => simp only [Date.toOrdinal]; omega
  case isFalse h =>
    have hday : d.day = daysInMonth d.year d.month := by omega
    split
    case isTrue hm =>
      have hrec := daysBeforeMonth_succ d.year d.month h2
      simp only [Date.toOrdinal]
      omega
    case isFalse hm =>
      have hm12 : d.month = 12 := by omega
      have hday2 : d.day = daysInMonth d.year 12 := by rw [← hm12]; omega
      have h13 : daysBeforeMonth d.year 13 = 365 + (if isLeapYear d.year then 1 else 0) := by
        cases hl : isLeapYear d.year <;> simp [daysBeforeMonth, daysInMonth, hl]
      have hrec := daysBeforeMonth_succ d.year 12 (by omega)
      norm_num at hrec
      have hb := base_succ d.year h1
      have hz : daysBeforeMonth (d.year + 1) 1 = 0 := rfl
      simp only [Date.toOrdinal, hm12, Nat.add_sub_cancel]
      omega

theorem addDays_valid {d : Date} (hd : d.Valid) (n : Nat) : (d.addDays n).Valid := by
  induction n with
  | zero => exact hd
  | succ k ih => exact nextDay_valid ih

theorem toOrdinal_addDays {d : Date} (hd : d.Valid) (n : Nat) :
    (d.addDays n).toOrdinal = d.toOrdinal + n := by
  induction n with
  | zero => rfl
  | succ k ih =>
    have hn := toOrdinal_nextDay (addDays_valid hd k)
    show (Date.addDays d k).nextDay.toOrdinal = _
    omega

/-!
Data model, embedded from `shared/schema.ts` and the in-memory storage
(`MemStorage` in the server source; the `DatabaseStorage` variant implements
the same queries with SQL).  JavaScript `Map` values iterate in insertion
order, so each map is embedded as a list with unique ids; `Map.set` on an
existing key is an in-place replacement and `Map.delete` a removal, embedded
as `List.map` / `List.filter`.  Timestamps (`createdAt`) are embedded as `Nat`
milliseconds; `price` is irrelevant to every claim and embedded as `Nat`.
-/

structure MembershipPlan where
  id : Nat
  name : String
  durationMonths : Nat
  price : Nat
  description : Option String
  gymId : Nat
  createdAt : Nat
deriving DecidableEq, Repr

structure Member where
  id : Nat
  name : String
  phone : String
  address : Option String
  photo : Option String
  joiningDate : Date
  nextBillDate : Date
  isActive : Bool
  isPaid : Bool
  membershipPlanId : Option Nat
  gymId : Nat
  createdAt : Nat
deriving DecidableEq, Repr

structure Storage where
  plans : List MembershipPlan
  members : List Member
  planIdCounter : Nat
  memberIdCounter : Nat
deriving DecidableEq, Repr

def Storage.getMembershipPlan (s : Storage) (id : Nat) : Option MembershipPlan :=
  s.plans.find? (fun p => p.id == id)

def Storage.getMember (s : Storage) (id : Nat) : Option Member :=
  s.members.find? (fun m => m.id == id)

/-- JavaScript `Map.set` on an existing key: replace the entry in place. -/
def Storage.setMember (s : Storage) (id : Nat) (updated : Member) : Storage :=
  { s with members := s.members.map fun m => if m.id = id then updated else m }

/-- JavaScript truthiness of an optional integer field
(`undefined`, `null` and `0` are falsy). -/
def truthyNat : Option Nat → Bool
  | none => false
  | some n => n != 0

/-- JavaScript truthiness of an optional string field
(`undefined`, `null` and `""` are falsy). -/
def truthyStr : Option String → Bool
  | none => false
  | some s => s != ""

/-- The request body accepted by `insertMemberSchema` (the `members` columns
minus `id` and `createdAt`). -/
structure InsertMemberBody where
  name : String
  phone : String
  address : Option String
  photo : Option String
  joiningDate : Date
  nextBillDate : Date
  isActive : Bool
  isPaid : Bool
  membershipPlanId : Option Nat
  gymId : Nat
deriving DecidableEq, Repr

inductive ApiError where
  | notFound (msg : String)
  | internal
deriving DecidableEq, Repr

def memberNotFound : ApiError := .notFound "Member not found"
def planNotFound : ApiError := .notFound "Membership plan not found"

/-- Route `POST /api/members`: compute `nextBillDate` from the referenced plan when
one is (truthily) supplied and found, else default it to the joining date,
then persist.  `now` is the creation timestamp `new Date()`. -/
def createMemberRoute (s : Storage) (gymId : Nat) (body : InsertMemberBody) (now : Nat) :
    Storage × Member :=
  let nextBillDate :=
    if truthyNat body.membershipPlanId then
      match s.getMembershipPlan (body.membershipPlanId.getD 0) with
      | some plan => addMonths body.joiningDate plan.durationMonths
      | none => body.joiningDate
    else body.joiningDate
  let newMember : Member :=
    { id := s.memberIdCounter, name := body.name, phone := body.phone,
      address := body.address, photo := body.photo, joiningDate := body.joiningDate,
      nextBillDate := nextBillDate, isActive := body.isActive, isPaid := body.isPaid,
      membershipPlanId := body.membershipPlanId, gymId := gymId, createdAt := now }
  ({ s with
      members := s.members ++ [newMember]
      memberIdCounter := s.memberIdCounter + 1 }, newMember)

/-- Route `GET /api/members/:id`. -/
def getMemberRoute (s : Storage) (gymId : Nat) (id : Nat) : Except ApiError Member :=
  match s.getMember id with
  | none => .error memberNotFound
  | some m => if m.gymId ≠ gymId then .error memberNotFound else .ok m

/-- Route `PUT /api/members/:id`: the stored member becomes
`{...existingMember, ...memberData, gymId, nextBillDate}` (all schema fields
overwritten from the body, `gymId` from the session, `nextBillDate`
recomputed when the referenced plan changed and is found). -/
def updateMemberRoute (s : Storage) (gymId : Nat) (id : Nat) (body : InsertMemberBody) :
    Except ApiError (Storage × Member) :=
  match s.getMember id with
  | none => .error memberNotFound
  | some existing =>
    if existing.gymId ≠ gymId then .error memberNotFound
    else
      let nextBillDate :=
        if truthyNat body.membershipPlanId && body.membershipPlanId != existing.membershipPlanId then
          match s.getMembershipPlan (body.membershipPlanId.getD 0) with
          | some plan => addMonths body.joiningDate plan.durationMonths
          | none => body.nextBillDate
        else body.nextBillDate
      let updated : Member :=
        { id := existing.id, name := body.name, phone := body.phone, address := body.address,
          photo := body.photo, joiningDate := body.joiningDate, nextBillDate := nextBillDate,
          isActive := body.isActive, isPaid := body.isPaid,
          membershipPlanId := body.membershipPlanId, gymId := gymId,
          createdAt := existing.createdAt }
      .ok (s.setMember id updated, updated)

/-- Route `PATCH /api/members/:id/status`: `updateMemberStatus` stores
`{ ...member, isActive }`. -/
def updateMemberStatusRoute (s : Storage) (gymId : Nat) (id : Nat) (isActive : Bool) :
    Except ApiError (Storage × Member) :=
  match s.getMember id with
  | none => .error memberNotFound
  | some existing =>
    if existing.gymId ≠ gymId then .error memberNotFound
    else
      let updated : Member := { existing with isActive := isActive }
      .ok (s.setMember id updated, updated)

/-- Route `POST /api/members/:id/renew`: the stored member becomes
`{...existingMember, membershipPlanId, isPaid: isPaid ?? true, isActive: true,
nextBillDate: addMonths(today, plan.durationMonths)}`.  The plan is looked up
by id only; its owning gym is not checked. -/
def renewMemberRoute (s : Storage) (gymId : Nat) (id : Nat) (membershipPlanId : Nat)
    (isPaid : Option Bool) (today : Date) : Except ApiError (Storage × Member) :=
  match s.getMember id with
  | none => .error memberNotFound
  | some existing =>
    if existing.gymId ≠ gymId then .error memberNotFound
    else
      match s.getMembershipPlan membershipPlanId with
      | none => .error planNotFound
      | some plan =>
        let nextBillDate := addMonths today plan.durationMonths
        let updated : Member :=
          { existing with
            membershipPlanId := some membershipPlanId
            isPaid := isPaid.getD true
            isActive := true
            nextBillDate := nextBillDate }
        .ok (s.setMember id updated, updated)

/-- Route `DELETE /api/members/:id`. -/
def deleteMemberRoute (s : Storage) (gymId : Nat) (id : Nat) : Except ApiError Storage :=
  match s.getMember id with
  | none => .error memberNotFound
  | some existing =>
    if existing.gymId ≠ gymId then .error memberNotFound
    else .ok { s with members := s.members.filter fun m => m.id != id }

/-- Whether `as` starts with `bs`. -/
def charsHasPrefix : List Char → List Char → Bool
  | _, [] => true
  | [], _ :: _ => false
  | c :: cs, d :: ds => c == d && charsHasPrefix cs ds

/-- Whether `sub` occurs contiguously inside `l`. -/
def charsIncludes (l sub : List Char) : Bool :=
  match l with
  | [] => charsHasPrefix [] sub
  | _ :: t => charsHasPrefix l sub || charsIncludes t sub

/-- JavaScript `String.prototype.includes`. -/
def strIncludes (s sub : String) : Bool :=
  charsIncludes s.toList sub.toList

/-- The `?name&phone&status` query filter of `GET /api/members`. -/
structure MemberFilter where
  name : Option String
  phone : Option String
  status : Option String
deriving DecidableEq, Repr

/-- The filter pipeline of `MemStorage.getMembers`: filter by gym, then
(truthily) by case-insensitive name substring, phone substring and status
bucket.  The hidden `new Date()` used by the `expired` bucket is `today`. -/
def Storage.filteredMembers (s : Storage) (gymId : Nat) (filter : MemberFilter)
    (today : Date) : List Member :=
  let l0 := s.members.filter fun m => m.gymId == gymId
  let l1 := if truthyStr filter.name then
      l0.filter fun m => strIncludes m.name.toLower (filter.name.getD "").toLower
    else l0
  let l2 := if truthyStr filter.phone then
      l1.filter fun m => strIncludes m.phone (filter.phone.getD "")
    else l1
  if filter.status == some "active" then l2.filter fun m => m.isActive
  else if filter.status == some "inactive" then l2.filter fun m => !m.isActive
  else if filter.status == some "expired" then
    l2.filter fun m => Date.blt m.nextBillDate today
  else l2

/-- Embeds `MemStorage.getMembers`: filter, report the filtered count, sort by
`createdAt` descending (JavaScript `sort` is stable since ES2019, embedded as
a stable insertion sort) and slice one page. -/
def Storage.getMembers (s : Storage) (gymId : Nat) (filter : MemberFilter)
    (limit offset : Nat) (today : Date) : List Member × Nat :=
  let l3 := s.filteredMembers gymId filter today
  let total := l3.length
  let sorted := List.insertionSort (fun a b => b.createdAt ≤ a.createdAt) l3
  ((sorted.drop offset).take limit, total)

structure PaginationInfo where
  page : Nat
  limit : Nat
  total : Nat
  totalPages : Nat
deriving DecidableEq, Repr

/-- JavaScript `Math.ceil(total / limit)` for natural inputs and positive `limit`. -/
def jsCeil (total limit : Nat) : Nat :=
  if total % limit == 0 then total / limit else total / limit + 1

/-- Route `GET /api/members?page&limit&...`: 1-based page numbers,
`offset = (page - 1) * limit`, `totalPages = Math.ceil(total / limit)`. -/
def getMembersRoute (s : Storage) (gymId : Nat) (filter : MemberFilter)
    (pageNum limitNum : Nat) (today : Date) : List Member × PaginationInfo :=
  let offset := (pageNum - 1) * limitNum
  let r := s.getMembers gymId filter limitNum offset today
  (r.1, ⟨pageNum, limitNum, r.2, jsCeil r.2 limitNum⟩)

def Storage.countMembers (s : Storage) (gymId : Nat) : Nat :=
  (s.members.filter fun m => m.gymId == gymId).length

/-- Embeds `MemStorage.countMembersJoinedAfter`: members whose `joiningDate` string
is `>=` the given date's string. -/
def Storage.countMembersJoinedAfter (s : Storage) (gymId : Nat) (date : Date) : Nat :=
  (s.members.filter fun m => m.gymId == gymId && Date.ble date m.joiningDate).length

/-- Embeds `MemStorage.countMembersExpiringBetween`: active members of the gym whose
`nextBillDate` string lies in the inclusive range. -/
def Storage.countMembersExpiringBetween (s : Storage) (gymId : Nat)
    (startDate endDate : Date) : Nat :=
  (s.members.filter fun m =>
    m.gymId == gymId && m.isActive && Date.ble startDate m.nextBillDate &&
      Date.ble m.nextBillDate endDate).length

def Storage.countExpiredMembers (s : Storage) (gymId : Nat) (date : Date) : Nat :=
  (s.members.filter fun m => m.gymId == gymId && Date.blt m.nextBillDate date).length

def Storage.countInactiveMembers (s : Storage) (gymId : Nat) : Nat :=
  (s.members.filter fun m => m.gymId == gymId && !m.isActive).length

structure DashboardStats where
  totalMembers : Nat
  monthlyJoined : Nat
  expiringThreeDays : Nat
  expiringWeek : Nat
  expiredMembers : Nat
  inactiveMembers : Nat
deriving DecidableEq, Repr

/-- Route `GET /api/dashboard/stats`.  Here `firstDayOfMonth` is
`new Date(today.getFullYear(), today.getMonth(), 1)`; the three/seven-day
horizons come from `setDate(getDate() + n)`. -/
def dashboardStatsRoute (s : Storage) (gymId : Nat) (today : Date) : DashboardStats :=
  let firstDayOfMonth : Date := ⟨today.year, today.month, 1⟩
  { totalMembers := s.countMembers gymId
    monthlyJoined := s.countMembersJoinedAfter gymId firstDayOfMonth
    expiringThreeDays := s.countMembersExpiringBetween gymId today (today.addDays 3)
    expiringWeek := s.countMembersExpiringBetween gymId today (today.addDays 7)
    expiredMembers := s.countExpiredMembers gymId today
    inactiveMembers := s.countInactiveMembers gymId }

inductive MemberStatus where
  | inactive
  | expired
  | expiringSoon
  | active
deriving DecidableEq, Repr

/-- Embeds `getMemberStatusBadge` from the dashboard members table: the string
comparison `member.nextBillDate < today` is `Date.blt`; the computed
`Math.ceil((nextBillDate - currentDate) / msPerDay)` equals the signed
calendar-day difference `daysUntil`. -/
def getMemberStatusBadge (m : Member) (today : Date) : MemberStatus :=
  if !m.isActive then .inactive
  else if Date.blt m.nextBillDate today then .expired
  else if daysUntil m.nextBillDate today ≤ 3 then .expiringSoon
  else .active

/-- Invariant of every storage state reachable through `MemStorage`: ids are
generated by counters starting at 1, hence unique and positive. -/
def Storage.WF (s : Storage) : Prop :=
  (s.members.map (fun m => m.id)).Nodup ∧ (s.plans.map (fun p => p.id)).Nodup ∧
    (∀ m ∈ s.members, 1 ≤ m.id) ∧ (∀ p ∈ s.plans, 1 ≤ p.id)

instance (s : Storage) : Decidable s.WF := by
  unfold Storage.WF; exact inferInstance

theorem find_of_mem_nodup {α : Type} (key : α → Nat) {l : List α}
    (hnd : (l.map key).Nodup) {x : α} (hx : x ∈ l) :
    l.find? (fun y => key y == key x) = some x := by
  induction l with
  | nil => cases hx
  | cons a t ih =>
    rw [List.map_cons, List.nodup_cons] at hnd
    rcases List.mem_cons.mp hx with hx | hx
    · subst hx
      simp [List.find?]
    · have hne : ¬(key a = key x) := fun he =>
        hnd.1 (he ▸ List.mem_map_of_mem key hx)
      have hbe : (key a == key x) = false := by rw [beq_eq_false_iff_ne]; exact hne
      simp only [List.find?, hbe]
      exact ih hnd.2 hx

theorem getMembershipPlan_of_mem {s : Storage} (hwf : s.WF) {p : MembershipPlan}
    (hp : p ∈ s.plans) : s.getMembershipPlan p.id = some p := by
  have h := find_of_mem_nodup (fun q : MembershipPlan => q.id) hwf.2.1 hp
  exact h

theorem getMember_of_mem {s : Storage} (hwf : s.WF) {m : Member}
    (hm : m ∈ s.members) : s.getMember m.id = some m := by
  have h := find_of_mem_nodup (fun q : Member => q.id) hwf.1 hm
  exact h

theorem find_eq_some_imp {α : Type} {p : α → Bool} {l : List α} {x : α}
    (h : l.find? p = some x) : p x = true ∧ x ∈ l :=
  ⟨List.find?_some h, List.mem_of_find?_eq_some h⟩

/-- After an in-place replacement keyed on `id`, lookup by `id` returns the
replacement (provided the replacement keeps the id of the entry it replaced). -/
theorem find_replace {l : List Member} {id : Nat} {mem : Member}
    (h : l.find? (fun m => m.id == id) = some mem) (u : Member) (hu : u.id = mem.id) :
    (l.map fun m => if m.id = id then u else m).find? (fun m => m.id == id) = some u := by
  have hid : mem.id = id := by
    have := List.find?_some h
    simpa using this
  induction l with
  | nil => simp [List.find?] at h
  | cons a t ih =>
    by_cases ha : a.id = id
    · have hue : (u.id == id) = true := by simp [hu, hid]
      simp only [List.map_cons, if_pos ha, List.find?, hue]
    · have hbe : (a.id == id) = false := by rw [beq_eq_false_iff_ne]; exact ha
      simp only [List.find?, hbe] at h
      simp only [List.map_cons, if_neg ha, List.find?, hbe]
      exact ih h

theorem getMember_setMember {s : Storage} {id : Nat} {mem : Member}
    (h : s.getMember id = some mem) (u : Member) (hu : u.id = mem.id) :
    (s.setMember id u).getMember id = some u :=
  find_replace h u hu

/-- C1: `getMemberStatusBadge` classifies with the precedence
inactive → expired (`nextBillDate` before today) → expiring-soon
(at most 3 days away) → active; in particular an inactive member is
classified Inactive regardless of its `nextBillDate`. -/
theorem classify_precedence (m : Member) (now : Date)
    (hm : m.nextBillDate.Valid) (hn : now.Valid) :
    (m.isActive = false → getMemberStatusBadge m now = MemberStatus.inactive) ∧
    (m.isActive = true → daysUntil m.nextBillDate now < 0 →
      getMemberStatusBadge m now = MemberStatus.expired) ∧
    (m.isActive = true → 0 ≤ daysUntil m.nextBillDate now →
      daysUntil m.nextBillDate now ≤ 3 →
      getMemberStatusBadge m now = MemberStatus.expiringSoon) ∧
    (m.isActive = true → 3 < daysUntil m.nextBillDate now →
      getMemberStatusBadge m now = MemberStatus.active) := by
  have hblt := blt_iff_toOrdinal hm hn
  refine ⟨?_, ?_, ?_, ?_⟩
  · intro h
    unfold getMemberStatusBadge
    simp [h]
  · intro h hneg
    have hord : m.nextBillDate.toOrdinal < now.toOrdinal := by
      unfold daysUntil at hneg; omega
    unfold getMemberStatusBadge
    simp [h, hblt.mpr hord]
  · intro h h0 h3
    have hord : ¬ m.nextBillDate.toOrdinal < now.toOrdinal := by
      unfold daysUntil at h0; omega
    have hb : Date.blt m.nextBillDate now = false := by
      rw [← Bool.not_eq_true, hblt]; exact hord
    unfold getMemberStatusBadge
    simp [h, hb]
    exact h3
  · intro h h3
    have hord : ¬ m.nextBillDate.toOrdinal < now.toOrdinal := by
      unfold daysUntil at h3; omega
    have hb : Date.blt m.nextBillDate now = false := by
      rw [← Bool.not_eq_true, hblt]; exact hord
    unfold getMemberStatusBadge
    simp [h, hb]
    exact h3

def wMember1 : Member :=
  { id := 1, name := "a", phone := "1", address := none, photo := none,
    joiningDate := ⟨2024, 6, 1⟩, nextBillDate := ⟨2024, 6, 30⟩, isActive := false,
    isPaid := true, membershipPlanId := none, gymId := 1, createdAt := 0 }

/-- C1 witness: an inactive member whose `nextBillDate` is yesterday is
classified Inactive, not Expired. -/
theorem classify_precedence_witness :
    getMemberStatusBadge wMember1 ⟨2024, 7, 1⟩ = MemberStatus.inactive :=
  (classify_precedence wMember1 ⟨2024, 7, 1⟩ (by decide) (by decide)).1 rfl

/-- C2: `POST /api/members` computes `nextBillDate` as the joining date plus
the referenced plan's `durationMonths` calendar months when the referenced
plan exists, and as the joining date itself when no plan id is supplied. -/
theorem enroll_nextBillDate (s : Storage) (gymId : Nat) (body : InsertMemberBody)
    (now : Nat) (hwf : s.WF) :
    (∀ plan ∈ s.plans, body.membershipPlanId = some plan.id →
      ((createMemberRoute s gymId body now).2).nextBillDate =
        addMonths body.joiningDate plan.durationMonths) ∧
    (body.membershipPlanId = none →
      ((createMemberRoute s gymId body now).2).nextBillDate = body.joiningDate) := by
  constructor
  · intro plan hp hpid
    have hpos : 1 ≤ plan.id := hwf.2.2.2 plan hp
    have hlook : s.getMembershipPlan plan.id = some plan := getMembershipPlan_of_mem hwf hp
    have hne : plan.id ≠ 0 := by omega
    unfold createMemberRoute
    simp [hpid, truthyNat, hne, hlook]
  · intro hnone
    unfold createMemberRoute
    simp [hnone, truthyNat]

def wPlan : MembershipPlan :=
  { id := 1, name := "Basic", durationMonths := 1, price := 20,
    description := none, gymId := 1, createdAt := 0 }

def wStorage : Storage :=
  { plans := [wPlan], members := [], planIdCounter := 2, memberIdCounter := 1 }

def wBody : InsertMemberBody :=
  { name := "n", phone := "p", address := none, photo := none,
    joiningDate := ⟨2024, 6, 1⟩, nextBillDate := ⟨2024, 6, 1⟩, isActive := true,
    isPaid := true, membershipPlanId := some 1, gymId := 1 }

/-- C2 witness: joining 2024-06-01 on a 1-month plan yields
`nextBillDate = 2024-07-01`. -/
theorem enroll_nextBillDate_witness :
    ((createMemberRoute wStorage 1 wBody 0).2).nextBillDate = ⟨2024, 7, 1⟩ := by
  have h := (enroll_nextBillDate wStorage 1 wBody 0 (by decide)).1 wPlan (by decide) rfl
  rw [h]
  decide

/-- C10: when the supplied `membershipPlanId` matches no stored plan,
`POST /api/members` still succeeds — the member is appended to storage —
and `nextBillDate` silently defaults to the joining date; `renew`, by
contrast, rejects the same missing plan with NotFound. -/
theorem enroll_missing_plan (s : Storage) (gymId : Nat) (body : InsertMemberBody)
    (now : Nat) (pid : Nat) (today : Date)
    (hpid : body.membershipPlanId = some pid)
    (hmiss : s.getMembershipPlan pid = none) :
    ((createMemberRoute s gymId body now).2).nextBillDate = body.joiningDate ∧
    ((createMemberRoute s gymId body now).1).members =
      s.members ++ [(createMemberRoute s gymId body now).2] ∧
    (∀ memberId mem, s.getMember memberId = some mem → mem.gymId = gymId →
      renewMemberRoute s gymId memberId pid none today = .error planNotFound) := by
  refine ⟨?_, ?_, ?_⟩
  · unfold createMemberRoute
    by_cases h0 : pid = 0
    · subst h0; simp [hpid, truthyNat]
    · simp [hpid, truthyNat, h0, hmiss]
  · unfold createMemberRoute
    simp
  · intro memberId mem hm hg
    unfold renewMemberRoute
    rw [hm]
    simp [hg, hmiss]

def wMember2 : Member :=
  { id := 1, name := "b", phone := "2", address := none, photo := none,
    joiningDate := ⟨2024, 6, 1⟩, nextBillDate := ⟨2024, 6, 1⟩, isActive := true,
    isPaid := true, membershipPlanId := none, gymId := 1, createdAt := 0 }

def wStorageNoPlans : Storage :=
  { plans := [], members := [wMember2], planIdCounter := 1, memberIdCounter := 2 }

def wBodyMissingPlan : InsertMemberBody :=
  { name := "n", phone := "p", address := none, photo := none,
    joiningDate := ⟨2024, 6, 1⟩, nextBillDate := ⟨2024, 6, 1⟩, isActive := true,
    isPaid := true, membershipPlanId := some 5, gymId := 1 }

/-- C10 witness: plan id 5 matches no stored plan; creation still succeeds with
`nextBillDate` defaulting to the joining date, while renew with the same id
fails with NotFound. -/
theorem enroll_missing_plan_witness :
    ((createMemberRoute wStorageNoPlans 1 wBodyMissingPlan 0).2).nextBillDate =
        wBodyMissingPlan.joiningDate ∧
      renewMemberRoute wStorageNoPlans 1 1 5 none ⟨2024, 7, 1⟩ = .error planNotFound := by
  have h := enroll_missing_plan wStorageNoPlans 1 wBodyMissingPlan 0 5 ⟨2024, 7, 1⟩ rfl rfl
  exact ⟨h.1, h.2.2 1 wMember2 rfl rfl⟩

/-- The member value stored by a successful renew:
`{...existingMember, membershipPlanId, isPaid: isPaid ?? true, isActive: true,
nextBillDate: addMonths(today, plan.durationMonths)}`. -/
def renewedMember (mem : Member) (planId : Nat) (ip : Option Bool) (today : Date)
    (plan : MembershipPlan) : Member :=
  { mem with
    membershipPlanId := some planId
    isPaid := ip.getD true
    isActive := true
    nextBillDate := addMonths today plan.durationMonths }

/-- Shape of a successful renew: the stored member is overwritten with the
plan reference, paid flag (defaulted), `isActive = true` and a `nextBillDate`
recomputed from today. -/
theorem renew_ok (s : Storage) (gymId memberId planId : Nat) (ip : Option Bool)
    (today : Date) (mem : Member) (hm : s.getMember memberId = some mem)
    (hg : mem.gymId = gymId) (plan : MembershipPlan)
    (hp : s.getMembershipPlan planId = some plan) :
    renewMemberRoute s gymId memberId planId ip today =
      .ok (s.setMember memberId (renewedMember mem planId ip today plan),
          renewedMember mem planId ip today plan) := by
  unfold renewMemberRoute renewedMember
  rw [hm]
  simp [hg, hp]

/-- C3: a successful renew sets `nextBillDate = addMonths today
plan.durationMonths` (independently of the prior `nextBillDate`),
`isActive = true`, and `isPaid` to the supplied flag defaulting to `true`;
renewing again on the same day yields the same `nextBillDate`. -/
theorem renew_resets_billing (s : Storage) (gymId memberId planId : Nat)
    (ip : Option Bool) (today : Date)
    (mem : Member) (hm : s.getMember memberId = some mem) (hg : mem.gymId = gymId)
    (plan : MembershipPlan) (hp : s.getMembershipPlan planId = some plan) :
    ∃ s₁ m₁, renewMemberRoute s gymId memberId planId ip today = .ok (s₁, m₁) ∧
      m₁.nextBillDate = addMonths today plan.durationMonths ∧
      m₁.isActive = true ∧
      m₁.isPaid = ip.getD true ∧
      ∃ s₂ m₂, renewMemberRoute s₁ gymId memberId planId ip today = .ok (s₂, m₂) ∧
        m₂.nextBillDate = m₁.nextBillDate := by
  have h1 := renew_ok s gymId memberId planId ip today mem hm hg plan hp
  refine ⟨_, _, h1, rfl, rfl, rfl, ?_⟩
  have hm₁ := getMember_setMember hm (renewedMember mem planId ip today plan) rfl
  have h2 := renew_ok _ gymId memberId planId ip today _ hm₁ hg plan hp
  exact ⟨_, _, h2, rfl⟩

def wPlan2 : MembershipPlan :=
  { id := 3, name := "Quarterly", durationMonths := 3, price := 50,
    description := none, gymId := 1, createdAt := 0 }

def wMember3 : Member :=
  { id := 7, name := "c", phone := "3", address := none, photo := none,
    joiningDate := ⟨2024, 1, 10⟩, nextBillDate := ⟨2024, 4, 10⟩, isActive := false,
    isPaid := false, membershipPlanId := none, gymId := 1, createdAt := 0 }

def wStorageRenew : Storage :=
  { plans := [wPlan2], members := [wMember3], planIdCounter := 4, memberIdCounter := 8 }

/-- C3 witness: renewing member 7 on 2024-07-01 with the 3-month plan yields
`nextBillDate = 2024-10-01` regardless of the stored 2024-04-10, and a second
same-day renew yields the same date. -/
theorem renew_resets_billing_witness :
    ∃ s₁ m₁, renewMemberRoute wStorageRenew 1 7 3 none ⟨2024, 7, 1⟩ = .ok (s₁, m₁) ∧
      m₁.nextBillDate = addMonths ⟨2024, 7, 1⟩ wPlan2.durationMonths ∧
      m₁.isActive = true ∧
      m₁.isPaid = (none : Option Bool).getD true ∧
      ∃ s₂ m₂, renewMemberRoute s₁ 1 7 3 none ⟨2024, 7, 1⟩ = .ok (s₂, m₂) ∧
        m₂.nextBillDate = m₁.nextBillDate :=
  renew_resets_billing wStorageRenew 1 7 3 none ⟨2024, 7, 1⟩ wMember3 rfl rfl wPlan2 rfl

def xPlanOtherGym : MembershipPlan :=
  { id := 2, name := "Other", durationMonths := 1, price := 10,
    description := none, gymId := 2, createdAt := 0 }

def xStorageCrossGym : Storage :=
  { plans := [xPlanOtherGym], members := [wMember2], planIdCounter := 3,
    memberIdCounter := 2 }

/-- C4 counterexample: member 1 is owned by gym 1 and plan 2 by gym 2, yet
renew invoked by gym 1 with plan 2 succeeds instead of failing with NotFound:
the route checks only that the plan exists, never its owning gym. -/
theorem renew_cross_gym_plan_cex :
    wMember2.gymId = 1 ∧ xPlanOtherGym.gymId = 2 ∧
    xStorageCrossGym.getMembershipPlan 2 = some xPlanOtherGym ∧
    ∃ r, renewMemberRoute xStorageCrossGym 1 1 2 none ⟨2024, 7, 1⟩ = Except.ok r :=
  ⟨rfl, rfl, rfl, _,
    renew_ok xStorageCrossGym 1 1 2 none ⟨2024, 7, 1⟩ wMember2 rfl rfl xPlanOtherGym rfl⟩

/-- C4 (amended): renew fails with NotFound exactly when the member does not
exist, the member belongs to a different gym, or the referenced plan does not
exist; the plan's owning gym is not checked, so with an existing owned member
and any existing plan — even one of a different gym — renew succeeds. -/
theorem renew_notFound_amended (s : Storage) (gymId memberId planId : Nat)
    (ip : Option Bool) (today : Date) :
    (s.getMember memberId = none →
      renewMemberRoute s gymId memberId planId ip today = .error memberNotFound) ∧
    (∀ mem, s.getMember memberId = some mem → mem.gymId ≠ gymId →
      renewMemberRoute s gymId memberId planId ip today = .error memberNotFound) ∧
    (∀ mem, s.getMember memberId = some mem → mem.gymId = gymId →
      s.getMembershipPlan planId = none →
      renewMemberRoute s gymId memberId planId ip today = .error planNotFound) ∧
    (∀ mem plan, s.getMember memberId = some mem → mem.gymId = gymId →
      s.getMembershipPlan planId = some plan →
      ∃ r, renewMemberRoute s gymId memberId planId ip today = Except.ok r) := by
  refine ⟨?_, ?_, ?_, ?_⟩
  · intro h
    unfold renewMemberRoute
    rw [h]
  · intro mem hm hg
    unfold renewMemberRoute
    rw [hm]
    simp [hg]
  · intro mem hm hg hp
    unfold renewMemberRoute
    rw [hm]
    simp [hg, hp]
  · intro mem plan hm hg hp
    exact ⟨_, renew_ok s gymId memberId planId ip today mem hm hg plan hp⟩

/-- C4 witness: a missing plan id yields NotFound. -/
theorem renew_notFound_amended_witness :
    renewMemberRoute wStorageNoPlans 1 1 5 none ⟨2024, 7, 1⟩ = .error planNotFound :=
  (renew_notFound_amended wStorageNoPlans 1 1 5 none ⟨2024, 7, 1⟩).2.2.1 wMember2 rfl rfl rfl

/-- C5: every member operation (get, update, status toggle, renew, delete)
invoked by a gym against a member owned by a different gym fails with
NotFound.  Each route rejects before invoking any storage mutation, so the
stored state is unchanged (the embedding makes this structural: an error
result carries no successor state). -/
theorem tenant_isolation (s : Storage) (gymB memberId : Nat) (body : InsertMemberBody)
    (planId : Nat) (ip : Option Bool) (b : Bool) (today : Date)
    (mem : Member) (hm : s.getMember memberId = some mem)
    (hg : mem.gymId ≠ gymB) :
    getMemberRoute s gymB memberId = .error memberNotFound ∧
    updateMemberRoute s gymB memberId body = .error memberNotFound ∧
    updateMemberStatusRoute s gymB memberId b = .error memberNotFound ∧
    renewMemberRoute s gymB memberId planId ip today = .error memberNotFound ∧
    deleteMemberRoute s gymB memberId = .error memberNotFound := by
  refine ⟨?_, ?_, ?_, ?_, ?_⟩
  · unfold getMemberRoute
    rw [hm]
    simp [hg]
  · unfold updateMemberRoute
    rw [hm]
    simp [hg]
  · unfold updateMemberStatusRoute
    rw [hm]
    simp [hg]
  · unfold renewMemberRoute
    rw [hm]
    simp [hg]
  · unfold deleteMemberRoute
    rw [hm]
    simp [hg]

/-- C5 witness: gym 2 acting on gym 1's member 1 gets NotFound from all five
operations. -/
theorem tenant_isolation_witness :
    getMemberRoute wStorageNoPlans 2 1 = .error memberNotFound ∧
    updateMemberRoute wStorageNoPlans 2 1 wBodyMissingPlan = .error memberNotFound ∧
    updateMemberStatusRoute wStorageNoPlans 2 1 true = .error memberNotFound ∧
    renewMemberRoute wStorageNoPlans 2 1 5 none ⟨2024, 7, 1⟩ = .error memberNotFound ∧
    deleteMemberRoute wStorageNoPlans 2 1 = .error memberNotFound :=
  tenant_isolation wStorageNoPlans 2 1 wBodyMissingPlan 5 none true ⟨2024, 7, 1⟩
    wMember2 rfl (by decide)

/-- Pointwise effect of `Map.set` on the stored member list: the entry with
the target id is replaced, all others are unchanged. -/
theorem setMember_get (s : Storage) (id : Nat) (u : Member) (i : Nat)
    (hi : i < s.members.length) (hi' : i < (s.setMember id u).members.length) :
    (s.setMember id u).members.get ⟨i, hi'⟩ =
      if (s.members.get ⟨i, hi⟩).id = id then u else s.members.get ⟨i, hi⟩ := by
  simp only [Storage.setMember, List.get_eq_getElem, List.getElem_map]

/-- C6: the status toggle stores `{ ...member, isActive }`: the returned
member differs from the stored one only in `isActive`; plans are untouched
and every stored member either is unchanged or has only its `isActive`
replaced, entries with a different id being strictly unchanged. -/
theorem status_toggle_frame (s : Storage) (gymId memberId : Nat) (b : Bool)
    (hwf : s.WF) (mem : Member) (hm : s.getMember memberId = some mem)
    (hg : mem.gymId = gymId) :
    ∃ s', updateMemberStatusRoute s gymId memberId b =
        .ok (s', { mem with isActive := b }) ∧
      s'.plans = s.plans ∧
      s'.members.length = s.members.length ∧
      ∀ i (hi : i < s.members.length) (hi' : i < s'.members.length),
        (s'.members.get ⟨i, hi'⟩ = s.members.get ⟨i, hi⟩ ∨
          s'.members.get ⟨i, hi'⟩ = { s.members.get ⟨i, hi⟩ with isActive := b }) ∧
        ((s.members.get ⟨i, hi⟩).id ≠ memberId →
          s'.members.get ⟨i, hi'⟩ = s.members.get ⟨i, hi⟩) := by
  have hroute : updateMemberStatusRoute s gymId memberId b =
      .ok (s.setMember memberId { mem with isActive := b },
        { mem with isActive := b }) := by
    unfold updateMemberStatusRoute
    rw [hm]
    simp [hg]
  refine ⟨_, hroute, rfl, by simp [Storage.setMember], ?_⟩
  unfold Storage.getMember at hm
  have hmemmem : mem ∈ s.members := List.mem_of_find?_eq_some hm
  have hmemid : mem.id = memberId := by simpa using List.find?_some hm
  intro i hi hi'
  have hmap := setMember_get s memberId { mem with isActive := b } i hi hi'
  by_cases hid : (s.members.get ⟨i, hi⟩).id = memberId
  · have heq : s.members.get ⟨i, hi⟩ = mem :=
      List.inj_on_of_nodup_map hwf.1 (List.get_mem s.members i hi) hmemmem
        (by rw [hid, hmemid])
    constructor
    · right
      rw [hmap, if_pos hid, heq]
    · intro hne
      exact absurd hid hne
  · have hunch : (s.setMember memberId { mem with isActive := b }).members.get ⟨i, hi'⟩ =
        s.members.get ⟨i, hi⟩ := by
      rw [hmap, if_neg hid]
    exact ⟨Or.inl hunch, fun _ => hunch⟩

/-- C6 witness: toggling member 7 to active flips only `isActive`; the stored
list keeps every other field. -/
theorem status_toggle_frame_witness :
    ∃ s', updateMemberStatusRoute wStorageRenew 1 7 true =
        .ok (s', { wMember3 with isActive := true }) ∧
      s'.plans = wStorageRenew.plans ∧
      s'.members.length = wStorageRenew.members.length ∧
      ∀ i (hi : i < wStorageRenew.members.length) (hi' : i < s'.members.length),
        (s'.members.get ⟨i, hi'⟩ = wStorageRenew.members.get ⟨i, hi⟩ ∨
          s'.members.get ⟨i, hi'⟩ =
            { wStorageRenew.members.get ⟨i, hi⟩ with isActive := true }) ∧
        ((wStorageRenew.members.get ⟨i, hi⟩).id ≠ 7 →
          s'.members.get ⟨i, hi'⟩ = wStorageRenew.members.get ⟨i, hi⟩) :=
  status_toggle_frame wStorageRenew 1 7 true (by decide) wMember3 rfl rfl

theorem bool_eq_of_iff {x y : Bool} (h : x = true ↔ y = true) : x = y := by
  cases x <;> cases y <;> simp_all

/-- On valid dates, the ISO-string comparison `<=` is the decision of the
ordinal comparison. -/
theorem ble_eq_decide {a b : Date} (ha : a.Valid) (hb : b.Valid) :
    Date.ble a b = decide (a.toOrdinal ≤ b.toOrdinal) := by
  apply bool_eq_of_iff
  rw [ble_iff_toOrdinal ha hb, decide_eq_true_eq]

/-- C7: the dashboard expiring-within-3-days figure counts exactly the gym's
active members whose `nextBillDate` is between 0 and 3 days away from `now`
(inclusive), provided all stored billing dates and `now` are valid dates. -/
theorem dashboard_expiring_three_days (s : Storage) (gymId : Nat) (now : Date)
    (hn : now.Valid) (hall : ∀ m ∈ s.members, m.nextBillDate.Valid) :
    (dashboardStatsRoute s gymId now).expiringThreeDays =
      (s.members.filter fun m => m.gymId == gymId && m.isActive &&
        decide (0 ≤ daysUntil m.nextBillDate now) &&
        decide (daysUntil m.nextBillDate now ≤ 3)).length := by
  have h3v : (now.addDays 3).Valid := addDays_valid hn 3
  have h3o : (now.addDays 3).toOrdinal = now.toOrdinal + 3 := toOrdinal_addDays hn 3
  show (s.members.filter fun m => m.gymId == gymId && m.isActive &&
      Date.ble now m.nextBillDate && Date.ble m.nextBillDate (now.addDays 3)).length = _
  congr 1
  apply List.filter_congr
  intro m hmem
  have hv := hall m hmem
  rw [ble_eq_decide hn hv, ble_eq_decide hv h3v, h3o]
  have e1 : decide (now.toOrdinal ≤ m.nextBillDate.toOrdinal) =
      decide (0 ≤ daysUntil m.nextBillDate now) := by
    rw [decide_eq_decide]
    unfold daysUntil
    omega
  have e2 : decide (m.nextBillDate.toOrdinal ≤ now.toOrdinal + 3) =
      decide (daysUntil m.nextBillDate now ≤ 3) := by
    rw [decide_eq_decide]
    unfold daysUntil
    omega
  rw [e1, e2]

def wMemberIn : Member :=
  { id := 1, name := "in", phone := "1", address := none, photo := none,
    joiningDate := ⟨2024, 6, 1⟩, nextBillDate := ⟨2024, 7, 3⟩, isActive := true,
    isPaid := true, membershipPlanId := none, gymId := 1, createdAt := 0 }

def wMemberOut : Member :=
  { id := 2, name := "out", phone := "2", address := none, photo := none,
    joiningDate := ⟨2024, 6, 1⟩, nextBillDate := ⟨2024, 7, 5⟩, isActive := true,
    isPaid := true, membershipPlanId := none, gymId := 1, createdAt := 1 }

def wStorage7 : Storage :=
  { plans := [], members := [wMemberIn, wMemberOut], planIdCounter := 1,
    memberIdCounter := 3 }

/-- C7 witness: for now = 2024-07-01 the count includes the member with
`nextBillDate = 2024-07-03` (difference 2) and excludes the one with
`nextBillDate = 2024-07-05` (difference 4). -/
theorem dashboard_expiring_three_days_witness :
    (dashboardStatsRoute wStorage7 1 ⟨2024, 7, 1⟩).expiringThreeDays =
      (wStorage7.members.filter fun m => m.gymId == 1 && m.isActive &&
        decide (0 ≤ daysUntil m.nextBillDate ⟨2024, 7, 1⟩) &&
        decide (daysUntil m.nextBillDate ⟨2024, 7, 1⟩ ≤ 3)).length ∧
    (dashboardStatsRoute wStorage7 1 ⟨2024, 7, 1⟩).expiringThreeDays = 1 ∧
    daysUntil wMemberIn.nextBillDate ⟨2024, 7, 1⟩ = 2 ∧
    daysUntil wMemberOut.nextBillDate ⟨2024, 7, 1⟩ = 4 := by
  refine ⟨dashboard_expiring_three_days wStorage7 1 ⟨2024, 7, 1⟩ (by decide) (by decide),
    ?_, ?_, ?_⟩ <;> decide

def wMemberFuture : Member :=
  { id := 1, name := "f", phone := "1", address := none, photo := none,
    joiningDate := ⟨2024, 8, 15⟩, nextBillDate := ⟨2024, 9, 15⟩, isActive := true,
    isPaid := true, membershipPlanId := none, gymId := 1, createdAt := 0 }

def wStorage8 : Storage :=
  { plans := [], members := [wMemberFuture], planIdCounter := 1, memberIdCounter := 2 }

/-- C8 counterexample: for now = 2024-07-10 the dashboard monthly-joined
count is 1 although the gym has no member whose `joiningDate` falls within
July 2024 — the single member joined 2024-08-15, a later month, and the code
applies no upper bound. -/
theorem monthly_joined_cex :
    (dashboardStatsRoute wStorage8 1 ⟨2024, 7, 10⟩).monthlyJoined = 1 ∧
    (wStorage8.members.filter fun m => m.gymId == 1 &&
      m.joiningDate.year == 2024 && m.joiningDate.month == 7).length = 0 := by
  constructor
  · decide
  · decide

/-- C8 (amended): the dashboard monthly-joined figure counts the gym's
members whose `joiningDate` lies in the current calendar month of `now` or in
any later month (earlier months are excluded; later months are included, as
the code only bounds `joiningDate` from below by the first of the month).
Requires only that stored joining dates have a day-of-month of at least 1. -/
theorem monthly_joined_amended (s : Storage) (gymId : Nat) (now : Date)
    (hall : ∀ m ∈ s.members, 1 ≤ m.joiningDate.day) :
    (dashboardStatsRoute s gymId now).monthlyJoined =
      (s.members.filter fun m => m.gymId == gymId &&
        (decide (now.year < m.joiningDate.year) ||
          (m.joiningDate.year == now.year &&
            decide (now.month ≤ m.joiningDate.month)))).length := by
  show (s.members.filter fun m => m.gymId == gymId &&
      Date.ble ⟨now.year, now.month, 1⟩ m.joiningDate).length = _
  congr 1
  apply List.filter_congr
  intro m hmem
  have hd := hall m hmem
  have hble : Date.ble ⟨now.year, now.month, 1⟩ m.joiningDate =
      (decide (now.year < m.joiningDate.year) ||
        (m.joiningDate.year == now.year &&
          decide (now.month ≤ m.joiningDate.month))) := by
    apply bool_eq_of_iff
    unfold Date.ble
    rw [Bool.not_eq_true', ← Bool.not_eq_true, blt_iff]
    simp only [Bool.or_eq_true, Bool.and_eq_true, decide_eq_true_eq, beq_iff_eq]
    omega
  rw [hble]

/-- C8 witness for the amended claim: the member who joined 2024-08-15 is in a
later month than July 2024 and is counted. -/
theorem monthly_joined_amended_witness :
    (dashboardStatsRoute wStorage8 1 ⟨2024, 7, 10⟩).monthlyJoined =
      (wStorage8.members.filter fun m => m.gymId == 1 &&
        (decide ((⟨2024, 7, 10⟩ : Date).year < m.joiningDate.year) ||
          (m.joiningDate.year == (⟨2024, 7, 10⟩ : Date).year &&
            decide ((⟨2024, 7, 10⟩ : Date).month ≤ m.joiningDate.month)))).length :=
  monthly_joined_amended wStorage8 1 ⟨2024, 7, 10⟩ (by decide)

theorem jsCeil_eq (T L : Nat) (hL : 1 ≤ L) : jsCeil T L = (T + L - 1) / L := by
  unfold jsCeil
  have hq := Nat.div_add_mod T L
  have hr : T % L < L := Nat.mod_lt _ (by omega)
  by_cases h0 : T % L = 0
  · simp only [h0, beq_self_eq_true, if_true]
    have e1 : T + L - 1 = L * (T / L) + (L - 1) := by omega
    rw [e1, Nat.mul_add_div (by omega)]
    have hz : (L - 1) / L = 0 := Nat.div_eq_of_lt (by omega)
    omega
  · have hb : (T % L == 0) = false := by
      rw [beq_eq_false_iff_ne]; exact h0
    simp only [hb, Bool.false_eq_true, if_false]
    have e2 : L * (T / L + 1) = L * (T / L) + L := by ring
    have e1 : T + L - 1 = L * (T / L + 1) + (T % L - 1) := by omega
    rw [e1, Nat.mul_add_div (by omega)]
    have hz : (T % L - 1) / L = 0 := Nat.div_eq_of_lt (by omega)
    omega

/-- C9: for a gym whose filtered member list has `total` entries, page `p`
with page size `L ≥ 1` returns exactly the entries at 1-based positions
`(p-1)·L+1 … p·L` of that list sorted by creation time descending, and
reports `totalPages = ⌈total / L⌉`. -/
theorem members_pagination (s : Storage) (gymId : Nat) (filter : MemberFilter)
    (page limit : Nat) (today : Date) (hL : 1 ≤ limit) :
    ∃ sorted : List Member,
      sorted.Pairwise (fun a b => b.createdAt ≤ a.createdAt) ∧
      sorted.length = (getMembersRoute s gymId filter page limit today).2.total ∧
      (getMembersRoute s gymId filter page limit today).1.length =
        min limit (sorted.length - (page - 1) * limit) ∧
      (∀ i (hi : i < (getMembersRoute s gymId filter page limit today).1.length)
        (hj : (page - 1) * limit + i < sorted.length),
        (getMembersRoute s gymId filter page limit today).1.get ⟨i, hi⟩ =
          sorted.get ⟨(page - 1) * limit + i, hj⟩) ∧
      (getMembersRoute s gymId filter page limit today).2.totalPages =
        ((getMembersRoute s gymId filter page limit today).2.total + limit - 1) / limit := by
  haveI ht : IsTotal Member (fun a b => b.createdAt ≤ a.createdAt) :=
    ⟨fun a b => le_total b.createdAt a.createdAt⟩
  haveI htr : IsTrans Member (fun a b => b.createdAt ≤ a.createdAt) :=
    ⟨fun a b c hab hbc => le_trans hbc hab⟩
  refine ⟨List.insertionSort (fun a b => b.createdAt ≤ a.createdAt)
      (s.filteredMembers gymId filter today), ?_, ?_, ?_, ?_, ?_⟩
  · exact List.sorted_insertionSort _ _
  · exact List.length_insertionSort _ _
  · show ((List.insertionSort (fun a b => b.createdAt ≤ a.createdAt)
        (s.filteredMembers gymId filter today)).drop
          ((page - 1) * limit) |>.take limit).length = _
    rw [List.length_take, List.length_drop]
  · intro i hi hj
    rw [List.get_eq_getElem, List.get_eq_getElem]
    show ((List.insertionSort (fun a b => b.createdAt ≤ a.createdAt)
        (s.filteredMembers gymId filter today)).drop
          ((page - 1) * limit) |>.take limit)[i] = _
    rw [List.getElem_take, List.getElem_drop]
  · exact jsCeil_eq _ _ hL

def wMembers25 : List Member :=
  (List.range 25).map fun i =>
    { id := i + 1, name := "m", phone := "9", address := none, photo := none,
      joiningDate := ⟨2024, 6, 1⟩, nextBillDate := ⟨2024, 7, 1⟩, isActive := true,
      isPaid := true, membershipPlanId := none, gymId := 1, createdAt := i + 1 }

def wStorage9 : Storage :=
  { plans := [], members := wMembers25, planIdCounter := 1, memberIdCounter := 26 }

def wFilterNone : MemberFilter := { name := none, phone := none, status := none }

/-- C9 witness: page 2 with limit 10 over 25 members (creation times 1..25)
returns the members ranked 11th..20th by creation time descending
(ids 15..6) and reports `totalPages = 3`. -/
theorem members_pagination_witness :
    (∃ sorted : List Member,
      sorted.Pairwise (fun a b => b.createdAt ≤ a.createdAt) ∧
      sorted.length = (getMembersRoute wStorage9 1 wFilterNone 2 10 ⟨2024, 7, 1⟩).2.total ∧
      (getMembersRoute wStorage9 1 wFilterNone 2 10 ⟨2024, 7, 1⟩).1.length =
        min 10 (sorted.length - (2 - 1) * 10) ∧
      (∀ i (hi : i < (getMembersRoute wStorage9 1 wFilterNone 2 10 ⟨2024, 7, 1⟩).1.length)
        (hj : (2 - 1) * 10 + i < sorted.length),
        (getMembersRoute wStorage9 1 wFilterNone 2 10 ⟨2024, 7, 1⟩).1.get ⟨i, hi⟩ =
          sorted.get ⟨(2 - 1) * 10 + i, hj⟩) ∧
      (getMembersRoute wStorage9 1 wFilterNone 2 10 ⟨2024, 7, 1⟩).2.totalPages =
        ((getMembersRoute wStorage9 1 wFilterNone 2 10 ⟨2024, 7, 1⟩).2.total + 10 - 1) / 10) ∧
    ((getMembersRoute wStorage9 1 wFilterNone 2 10 ⟨2024, 7, 1⟩).1.map fun m => m.id) =
      [15, 14, 13, 12, 11, 10, 9, 8, 7, 6] ∧
    (getMembersRoute wStorage9 1 wFilterNone 2 10 ⟨2024, 7, 1⟩).2.total = 25 ∧
    (getMembersRoute wStorage9 1 wFilterNone 2 10 ⟨2024, 7, 1⟩).2.totalPages = 3 :=
  ⟨members_pagination wStorage9 1 wFilterNone 2 10 ⟨2024, 7, 1⟩ (by decide),
    by decide, by decide, by decide⟩
